import Mathlib

/-!
# Verification of the MCP core (protocol dispatch layer and orchestration loop)

Shallow embedding of the repository's core JavaScript modules:

* `src/core/mcp-schema.js`  — Joi request/response schemas, envelope builders
  and validators (`createSuccessResponse`, `createErrorResponse`,
  `validateRequest`, `validateResponse`);
* `src/core/mcp-server.js`  — `MCPServer` (tool registry, `registerTool`,
  `handleRequest`, the `GET /tools` route and the built-in `system.*` tools);
* `src/core/mcp-agent.js`   — `MCPAgent` (`_executePlan` retry loop,
  `_addToConversation` bounded history, `processUserQuery` top-level flow).

JavaScript values are modelled by the inductive `JsVal`; JavaScript
exceptions by `Except String` (the `String` is the exception's `.message`).
Joi (v17) semantics modelled here, matching the library's documented
behaviour on the two schemas of `mcp-schema.js`:

* a root schema is implicitly optional, so validating the `undefined`
  value succeeds;
* `Joi.object()` matches objects — and, with the default `convert: true`,
  JSON strings that parse into objects: a string whose first
  non-whitespace character is `{` is JSON-parsed and on success the
  parsed object replaces it; every other value (`null`, arrays,
  booleans, numbers, non-parsing strings) fails the object type check;
* keys absent from the keys map of a `Joi.object({...})` schema are
  rejected ("is not allowed");
* a key whose value is `undefined` counts as absent;
* `Joi.string()` rejects the empty string (and does not coerce);
* `Joi.when('status', { is, then, otherwise })` selects `then` exactly when
  the sibling `status` value equals the `is` literal.

The validators come in two layers.  `joiValidateRequest` /
`joiValidateResponse` are the coercion-free evaluation cores — equal to
the faithful validators at the never-parsing oracle
(`joiValidateRequestJson_noParse`, `joiValidateResponseJson_noParse`);
the dispatch-layer model (`handleRequest`) uses them, where the coercion
cannot change the verdicts proved here: a JSON-string request that really
passes validation still throws at the `request.action` property access
and lands in the same outer catch, so totality and envelope validity are
unaffected.  `joiValidateRequestJson` / `joiValidateResponseJson` add the
JSON-string coercion, parameterized by the `JSON.parse` oracle (a JS
runtime builtin, not code of this repository), and are the model the
envelope-builder and validation claims are settled against.

Joi's generated error-message texts are abbreviated to fixed strings; no
claim depends on their exact wording, only on which inputs produce an
error and on messages being returned at all.
-/

/-- A JavaScript runtime value (the fragment the MCP core manipulates).
Objects are ordered association lists of fields, as produced by JSON
parsing; JavaScript object keys are unique, which the lookups below
respect by always taking the first occurrence. -/
inductive JsVal where
  | undef
  | null
  | bool (b : Bool)
  | num (n : Int)
  | str (s : String)
  | arr (elems : List JsVal)
  | obj (fields : List (String × JsVal))

/-- First-occurrence association-list lookup (JS `Map.get` / property access). -/
def assocLookup {α : Type} (l : List (String × α)) (k : String) : Option α :=
  match l with
  | [] => none
  | (k', v) :: rest => if k' = k then some v else assocLookup rest k

/-- The value of a field as Joi sees it: a key bound to `undefined` counts
as missing. -/
def getDefined (fields : List (String × JsVal)) (k : String) : Option JsVal :=
  match assocLookup fields k with
  | some JsVal.undef => none
  | some v => some v
  | none => none

/-- JavaScript truthiness (`if (schema)` in `registerTool`). -/
def jsTruthy : JsVal → Bool
  | JsVal.undef => false
  | JsVal.null => false
  | JsVal.bool b => b
  | JsVal.num n => n != 0
  | JsVal.str s => s ≠ ""
  | JsVal.arr _ => true
  | JsVal.obj _ => true

/-- Template-literal rendering of a value (interpolation in backtick
strings such as the unknown-tool message). Array rendering is abbreviated;
every call site in the embedded code interpolates a string. -/
def jsTemplate : JsVal → String
  | JsVal.undef => "undefined"
  | JsVal.null => "null"
  | JsVal.bool b => if b then "true" else "false"
  | JsVal.num n => toString n
  | JsVal.str s => s
  | JsVal.arr _ => ""
  | JsVal.obj _ => "[object Object]"

/-- JS property read `v.k`: throws a `TypeError` on `undefined`/`null`,
yields `undefined` on other non-objects, field lookup on objects. -/
def jsGet (v : JsVal) (k : String) : Except String JsVal :=
  match v with
  | JsVal.undef => Except.error ("Cannot read properties of undefined (reading " ++ k ++ ")")
  | JsVal.null => Except.error ("Cannot read properties of null (reading " ++ k ++ ")")
  | JsVal.obj fields => Except.ok ((assocLookup fields k).getD JsVal.undef)
  | _ => Except.ok JsVal.undef

/-- Abort-early sequencing of Joi field checks: the first error wins. -/
def orElseO (a b : Option String) : Option String :=
  match a with
  | some m => some m
  | none => b

/-! ## The Joi request schema (`requestSchema` in `mcp-schema.js`)

```
Joi.object({
  version: Joi.string().valid('1.0').required(),
  action: Joi.object({
    name: Joi.string().required(),
    parameters: Joi.object().default({})
  }).required()
})
```
-/

/-- `version: Joi.string().valid('1.0').required()`. -/
def joiCheckVersion : Option JsVal → Option String
  | none => some "\"version\" is required"
  | some (JsVal.str s) =>
      if s = "1.0" then none else some "\"version\" must be [1.0]"
  | some _ => some "\"version\" must be a string"

/-- `name: Joi.string().required()` (Joi strings reject the empty string). -/
def joiCheckName : Option JsVal → Option String
  | none => some "\"action.name\" is required"
  | some (JsVal.str s) =>
      if s = "" then some "\"action.name\" is not allowed to be empty" else none
  | some _ => some "\"action.name\" must be a string"

/-- `parameters: Joi.object().default({})`: optional, but must be an object
when present. -/
def joiCheckParameters : Option JsVal → Option String
  | none => none
  | some (JsVal.obj _) => none
  | some _ => some "\"action.parameters\" must be of type object"

/-- `action: Joi.object({ name, parameters }).required()`. -/
def joiCheckAction : Option JsVal → Option String
  | none => some "\"action\" is required"
  | some (JsVal.obj afields) =>
      if afields.any (fun kv => kv.1 != "name" && kv.1 != "parameters") then
        some "\"action\" contains a key that is not allowed"
      else
        orElseO (joiCheckName (getDefined afields "name"))
          (joiCheckParameters (getDefined afields "parameters"))
  | some _ => some "\"action\" must be of type object"

/-- `requestSchema.validate(v).error?.message`, as an `Option String`
(`none` = no error), without the JSON-string coercion: the evaluation
core shared with the faithful `joiValidateRequestJson` below, to which it
is equal at the never-parsing oracle (`joiValidateRequestJson_noParse`).
The root schema is not `.required()`, so `undefined` validates
successfully. -/
def joiValidateRequest : JsVal → Option String
  | JsVal.undef => none
  | JsVal.obj fields =>
      if fields.any (fun kv => kv.1 != "version" && kv.1 != "action") then
        some "request contains a key that is not allowed"
      else
        orElseO (joiCheckVersion (getDefined fields "version"))
          (joiCheckAction (getDefined fields "action"))
  | _ => some "\"value\" must be of type object"

/-! ## The Joi response schema (`responseSchema` in `mcp-schema.js`)

```
Joi.object({
  version: Joi.string().valid('1.0').required(),
  status: Joi.string().valid('success', 'error').required(),
  result: Joi.when('status', { is: 'success', then: Joi.object().required(), otherwise: Joi.forbidden() }),
  error: Joi.when('status', { is: 'error', then: Joi.string().required(), otherwise: Joi.forbidden() })
})
```
-/

/-- Does the (Joi-visible) `status` field equal the given literal? -/
def statusIs (status : Option JsVal) (lit : String) : Bool :=
  match status with
  | some (JsVal.str s) => s = lit
  | _ => false

/-- `status: Joi.string().valid('success', 'error').required()`. -/
def joiCheckStatus : Option JsVal → Option String
  | none => some "\"status\" is required"
  | some (JsVal.str s) =>
      if s = "success" || s = "error" then none
      else some "\"status\" must be one of [success, error]"
  | some _ => some "\"status\" must be a string"

/-- The `result` conditional rule of the response schema. -/
def joiCheckResult (status result : Option JsVal) : Option String :=
  if statusIs status "success" then
    match result with
    | none => some "\"result\" is required"
    | some (JsVal.obj _) => none
    | some _ => some "\"result\" must be of type object"
  else
    match result with
    | none => none
    | some _ => some "\"result\" is not allowed"

/-- The `error` conditional rule of the response schema. -/
def joiCheckError (status error : Option JsVal) : Option String :=
  if statusIs status "error" then
    match error with
    | none => some "\"error\" is required"
    | some (JsVal.str m) =>
        if m = "" then some "\"error\" is not allowed to be empty" else none
    | some _ => some "\"error\" must be a string"
  else
    match error with
    | none => none
    | some _ => some "\"error\" is not allowed"

/-- `responseSchema.validate(v).error?.message` (`none` = no error),
without the JSON-string coercion: equal to the faithful
`joiValidateResponseJson` below at the never-parsing oracle
(`joiValidateResponseJson_noParse`). -/
def joiValidateResponse : JsVal → Option String
  | JsVal.undef => none
  | JsVal.obj fields =>
      if fields.any (fun kv =>
          kv.1 != "version" && kv.1 != "status" && kv.1 != "result" && kv.1 != "error") then
        some "response contains a key that is not allowed"
      else
        orElseO (joiCheckVersion (getDefined fields "version"))
          (orElseO (joiCheckStatus (getDefined fields "status"))
            (orElseO (joiCheckResult (getDefined fields "status") (getDefined fields "result"))
              (joiCheckError (getDefined fields "status") (getDefined fields "error"))))
  | _ => some "\"value\" must be of type object"

/-! ## Envelope builders (`mcp-schema.js`) -/

/-- The object literal built by `createSuccessResponse` before validation. -/
def successEnvelope (result : JsVal) : JsVal :=
  JsVal.obj [("version", JsVal.str "1.0"), ("status", JsVal.str "success"),
    ("result", result)]

/-- The object literal built by `createErrorResponse` before validation. -/
def errorEnvelope (errorMessage : String) : JsVal :=
  JsVal.obj [("version", JsVal.str "1.0"), ("status", JsVal.str "error"),
    ("error", JsVal.str errorMessage)]

/-- `createSuccessResponse(result)`: builds the success envelope, validates
it against `responseSchema` and throws on a validation error. -/
def createSuccessResponse (result : JsVal) : Except String JsVal :=
  match joiValidateResponse (successEnvelope result) with
  | some m => Except.error ("Nieprawidłowa odpowiedź MCP: " ++ m)
  | none => Except.ok (successEnvelope result)

/-- `createErrorResponse(errorMessage)`: builds the error envelope,
validates it against `responseSchema` and throws on a validation error. -/
def createErrorResponse (errorMessage : String) : Except String JsVal :=
  match joiValidateResponse (errorEnvelope errorMessage) with
  | some m => Except.error ("Nieprawidłowa odpowiedź MCP: " ++ m)
  | none => Except.ok (errorEnvelope errorMessage)

/-! ## Joi's JSON-string coercion (`convert: true`)

`validate` is called with Joi's default options, where `convert: true`.
At every object-typed position Joi then attempts to coerce a string
input before the type check (its `object` coerce step): when the
string's first non-whitespace character is an opening brace, the string
is passed to `JSON.parse`; on success the parsed value — necessarily an
object, since JSON text starting with a brace parses to nothing else —
replaces the string, and on a parse failure (or a failed guard) the
string is kept and then fails the object type check.  This applies to
the root of both schemas and to the object-typed fields `action`,
`parameters` and `result`; the string-typed `version`, `status`, `name`
and `error` have no coercion.

`JSON.parse` is a JS-runtime builtin, not code of this repository; like
the wall clock (`Date.now`, modelled as the `now` parameter), it is
modelled as an explicit oracle parameter mapping the string to the
parsed object's fields, `none` meaning a parse failure.  Theorems about
the coercing validators are quantified over this oracle, so they hold in
particular for the runtime's actual parser; closed statements
instantiate it with a concrete function whose values are forced by
JSON's grammar at the few strings they involve (or never consulted at
all, when the brace guard fails). -/

/-- The `JSON.parse` oracle: the fields of the parsed object, or `none`
on a parse failure. -/
def JsonParse : Type := String → Option (List (String × JsVal))

/-- Joi's coercion guard (`value[0] !== '{' && !/^\s*\{/.test(value)`
skips the attempt): the first non-whitespace character is an opening
brace. -/
def startsWithBrace (s : String) : Bool :=
  match s.data.dropWhile Char.isWhitespace with
  | [] => false
  | c :: _ => c = '{'

/-- The object view of a value at an object-typed position under
`convert: true`: an object's own fields, or the JSON parse of a string
passing the brace guard; `none` means the value fails the object type
check. -/
def coerceToObjFields (jp : JsonParse) : JsVal → Option (List (String × JsVal))
  | JsVal.obj fields => some fields
  | JsVal.str s => if startsWithBrace s then jp s else none
  | JsVal.undef => none
  | JsVal.null => none
  | JsVal.bool _ => none
  | JsVal.num _ => none
  | JsVal.arr _ => none

/-- A parse-oracle instantiation that never succeeds, used in closed
statements whose evaluation never consults the oracle (no string reaches
an object-typed position, or the brace guard fails on it). -/
def noParse : JsonParse := fun _ => none

/-- A parse-oracle instantiation agreeing with `JSON.parse` on the only
string it accepts: the text `\x7b\x7d` (an empty JSON object) parses to
the empty field list. -/
def parseEmptyObj : JsonParse := fun s => if s = "\x7b\x7d" then some [] else none

/-- `parameters: Joi.object().default({})` under `convert: true`. -/
def joiCheckParametersJson (jp : JsonParse) : Option JsVal → Option String
  | none => none
  | some p =>
      match coerceToObjFields jp p with
      | some _ => none
      | none => some "\"action.parameters\" must be of type object"

/-- `action: Joi.object({ name, parameters }).required()` under
`convert: true`. -/
def joiCheckActionJson (jp : JsonParse) : Option JsVal → Option String
  | none => some "\"action\" is required"
  | some a =>
      match coerceToObjFields jp a with
      | some afields =>
          if afields.any (fun kv => kv.1 != "name" && kv.1 != "parameters") then
            some "\"action\" contains a key that is not allowed"
          else
            orElseO (joiCheckName (getDefined afields "name"))
              (joiCheckParametersJson jp (getDefined afields "parameters"))
      | none => some "\"action\" must be of type object"

/-- The keys checks of `requestSchema` on the (coerced) request object. -/
def joiRequestFieldsCheck (jp : JsonParse) (fields : List (String × JsVal)) : Option String :=
  if fields.any (fun kv => kv.1 != "version" && kv.1 != "action") then
    some "request contains a key that is not allowed"
  else
    orElseO (joiCheckVersion (getDefined fields "version"))
      (joiCheckActionJson jp (getDefined fields "action"))

/-- `requestSchema.validate(v).error?.message` under Joi's default
`convert: true`: the faithful model of `validateRequest` (`none` = the
source's `true` return).  Arms are spelled per constructor because the
coercion only affects strings; the root schema is not `.required()`, so
`undefined` still validates successfully. -/
def joiValidateRequestJson (jp : JsonParse) : JsVal → Option String
  | JsVal.undef => none
  | JsVal.obj fields => joiRequestFieldsCheck jp fields
  | JsVal.str s =>
      match coerceToObjFields jp (JsVal.str s) with
      | some fields => joiRequestFieldsCheck jp fields
      | none => some "\"value\" must be of type object"
  | JsVal.null => some "\"value\" must be of type object"
  | JsVal.bool _ => some "\"value\" must be of type object"
  | JsVal.num _ => some "\"value\" must be of type object"
  | JsVal.arr _ => some "\"value\" must be of type object"

/-- The `result` conditional rule of the response schema under
`convert: true`. -/
def joiCheckResultJson (jp : JsonParse) (status result : Option JsVal) : Option String :=
  if statusIs status "success" then
    match result with
    | none => some "\"result\" is required"
    | some r =>
        match coerceToObjFields jp r with
        | some _ => none
        | none => some "\"result\" must be of type object"
  else
    match result with
    | none => none
    | some _ => some "\"result\" is not allowed"

/-- The keys checks of `responseSchema` on the (coerced) response
object. -/
def joiResponseFieldsCheck (jp : JsonParse) (fields : List (String × JsVal)) : Option String :=
  if fields.any (fun kv =>
      kv.1 != "version" && kv.1 != "status" && kv.1 != "result" && kv.1 != "error") then
    some "response contains a key that is not allowed"
  else
    orElseO (joiCheckVersion (getDefined fields "version"))
      (orElseO (joiCheckStatus (getDefined fields "status"))
        (orElseO (joiCheckResultJson jp (getDefined fields "status") (getDefined fields "result"))
          (joiCheckError (getDefined fields "status") (getDefined fields "error"))))

/-- `responseSchema.validate(v).error?.message` under Joi's default
`convert: true`: the faithful model of `validateResponse`. -/
def joiValidateResponseJson (jp : JsonParse) : JsVal → Option String
  | JsVal.undef => none
  | JsVal.obj fields => joiResponseFieldsCheck jp fields
  | JsVal.str s =>
      match coerceToObjFields jp (JsVal.str s) with
      | some fields => joiResponseFieldsCheck jp fields
      | none => some "\"value\" must be of type object"
  | JsVal.null => some "\"value\" must be of type object"
  | JsVal.bool _ => some "\"value\" must be of type object"
  | JsVal.num _ => some "\"value\" must be of type object"
  | JsVal.arr _ => some "\"value\" must be of type object"

/-- `createSuccessResponse(result)` with the faithful coercing validator:
builds the success envelope, validates it, throws on a validation error,
and returns the **original** envelope (the source returns its `response`
local, not `validationResult.value`, so a coerced result is not kept). -/
def createSuccessResponseJson (jp : JsonParse) (result : JsVal) : Except String JsVal :=
  match joiValidateResponseJson jp (successEnvelope result) with
  | some m => Except.error ("Nieprawidłowa odpowiedź MCP: " ++ m)
  | none => Except.ok (successEnvelope result)

/-- `createErrorResponse(errorMessage)` with the faithful coercing
validator. -/
def createErrorResponseJson (jp : JsonParse) (errorMessage : String) : Except String JsVal :=
  match joiValidateResponseJson jp (errorEnvelope errorMessage) with
  | some m => Except.error ("Nieprawidłowa odpowiedź MCP: " ++ m)
  | none => Except.ok (errorEnvelope errorMessage)

/-! ## The MCP server (`mcp-server.js`) -/

/-- A tool handler: `(parameters) → result | throws with a message`
(`async` resolution/rejection collapses to `Except` in the sequential
model). -/
def ToolHandler : Type := JsVal → Except String JsVal

/-- The mutable registry state of an `MCPServer` instance: the three maps
`tools`, `toolDescriptions`, `toolSchemas`, each in insertion order. -/
structure MCPServer where
  tools : List (String × ToolHandler)
  toolDescriptions : List (String × String)
  toolSchemas : List (String × JsVal)

/-- JS `String.prototype.trim`: strip whitespace from both ends (spelled
out over the character list so that proofs can evaluate it). -/
def jsTrim (s : String) : String :=
  String.mk (((s.data.dropWhile Char.isWhitespace).reverse.dropWhile
    Char.isWhitespace).reverse)

/-- `registerTool(name, handler, description, schema = null)`.

Returned as `(thrown exception?, state after the call)`: a JS `throw`
leaves the receiver as mutated so far, and all throws in the source occur
before any mutation.  The `typeof handler !== 'function'` and
`typeof description !== 'string'` guards cannot fail in this typed
embedding (every `ToolHandler` is a function, every description a
string); the remaining guards are kept in source order.  `if (schema)`
is a JS truthiness test, hence `jsTruthy`. -/
def registerTool (srv : MCPServer) (name : String) (handler : ToolHandler)
    (description : String) (schema : JsVal) : Option String × MCPServer :=
  if jsTrim name = "" then
    (some "Nazwa narzędzia musi być niepustym ciągiem znaków", srv)
  else if (assocLookup srv.tools name).isSome then
    (some ("Narzędzie o nazwie \"" ++ name ++ "\" jest już zarejestrowane"), srv)
  else
    (none,
      { tools := srv.tools ++ [(name, handler)],
        toolDescriptions := srv.toolDescriptions ++ [(name, description)],
        toolSchemas :=
          if jsTruthy schema then srv.toolSchemas ++ [(name, schema)]
          else srv.toolSchemas })

/-- `this.tools.has(name)` / `this.tools.get(name)` with the `name` taken
from the request: `Map` keys are strings, so a non-string value is never
present. -/
def lookupTool (srv : MCPServer) (name : JsVal) : Option ToolHandler :=
  match name with
  | JsVal.str s => assocLookup srv.tools s
  | _ => none

/-- Destructuring `const { name, parameters } = request.action` applied to
an already-read `action` value: throws a `TypeError` on `undefined`/`null`,
otherwise reads both properties (missing → `undefined`). -/
def jsDestructureNameParams (action : JsVal) : Except String (JsVal × JsVal) :=
  match action with
  | JsVal.undef => Except.error "Cannot destructure property name of undefined"
  | JsVal.null => Except.error "Cannot destructure property name of null"
  | JsVal.obj afields =>
      Except.ok ((assocLookup afields "name").getD JsVal.undef,
        (assocLookup afields "parameters").getD JsVal.undef)
  | _ => Except.ok (JsVal.undef, JsVal.undef)

/-- The body of `MCPServer.handleRequest`'s outer `try` block.  An
`Except.error` is an exception escaping to the outer `catch`.  The inner
`try` around the tool call also catches a throw from
`createSuccessResponse` (whose message is `Nieprawidłowa odpowiedź MCP:
...`), wrapping it like a tool failure. -/
def handleRequestAux (srv : MCPServer) (request : JsVal) : Except String JsVal :=
  match joiValidateRequest request with
  | some msg => createErrorResponse ("Nieprawidłowe żądanie: " ++ msg)
  | none =>
    match jsGet request "action" with
    | Except.error e => Except.error e
    | Except.ok action =>
      match jsDestructureNameParams action with
      | Except.error e => Except.error e
      | Except.ok (nameV, parametersV) =>
        match lookupTool srv nameV with
        | none => createErrorResponse ("Nieznane narzędzie: " ++ jsTemplate nameV)
        | some toolHandler =>
          match toolHandler parametersV with
          | Except.ok result =>
            match createSuccessResponse result with
            | Except.ok env => Except.ok env
            | Except.error e =>
                createErrorResponse ("Błąd podczas wykonywania narzędzia: " ++ e)
          | Except.error e =>
              createErrorResponse ("Błąd podczas wykonywania narzędzia: " ++ e)

/-- `MCPServer.handleRequest(request)`: the outer `catch` converts any
escaping exception into a generic error envelope.  The result is still an
`Except` because `createErrorResponse` inside the outer `catch` could in
principle throw (the totality theorem shows it never does). -/
def handleRequest (srv : MCPServer) (request : JsVal) : Except String JsVal :=
  match handleRequestAux srv request with
  | Except.ok env => Except.ok env
  | Except.error msg => createErrorResponse ("Nieoczekiwany błąd: " ++ msg)

/-- One entry of a tool catalog (`{ name, description, schema }`).
`description` is `this.toolDescriptions.get(name)` (`undefined` when
absent, hence `Option`); `schema` is `this.toolSchemas.get(name) || null`. -/
structure CatalogEntry where
  name : String
  description : Option String
  schema : JsVal

/-- The `{ name, description, schema }` record built for one tool name by
both catalog views in `mcp-server.js`. -/
def catalogEntryOf (srv : MCPServer) (name : String) : CatalogEntry :=
  { name := name,
    description := assocLookup srv.toolDescriptions name,
    schema :=
      match assocLookup srv.toolSchemas name with
      | some v => if jsTruthy v then v else JsVal.null
      | none => JsVal.null }

/-- The `GET /tools` route of `_setupRoutes`: maps over **all** registered
tool names, in registration order, with no namespace filtering. -/
def toolsEndpointCatalog (srv : MCPServer) : List CatalogEntry :=
  (srv.tools.map Prod.fst).map (catalogEntryOf srv)

/-- JS `String.prototype.startsWith` (spelled out over the character
lists so that proofs can evaluate it). -/
def jsStartsWith (s pre : String) : Bool :=
  pre.data.isPrefixOf s.data

/-- The body of the built-in `system.getTools` tool registered by
`_registerSystemTools`: all registered names **except** those starting
with `system.`, in registration order. -/
def systemGetToolsCatalog (srv : MCPServer) : List CatalogEntry :=
  (((srv.tools.map Prod.fst).filter (fun n => !(jsStartsWith n "system."))).map
    (catalogEntryOf srv))

/-- The handler of the built-in `system.ping` tool: returns
`{ timestamp: Date.now(), status: 'active', version: '1.0' }`; the wall
clock is a parameter of the model. -/
def systemPingHandler (now : Int) : ToolHandler := fun _ =>
  Except.ok (JsVal.obj [("timestamp", JsVal.num now), ("status", JsVal.str "active"),
    ("version", JsVal.str "1.0")])

/-- Rendering of a catalog as the `{ tools: [...] }` result object. -/
def catalogToJs (entries : List CatalogEntry) : JsVal :=
  JsVal.obj [("tools", JsVal.arr (entries.map (fun e =>
    JsVal.obj [("name", JsVal.str e.name),
      ("description", (e.description.map JsVal.str).getD JsVal.undef),
      ("schema", e.schema)])))]

/-- The handler of the built-in `system.getTools` tool.  The source
closure reads the live registry through `this`; in the immutable model the
registry snapshot it will observe is passed explicitly. -/
def systemGetToolsHandler (snapshot : List CatalogEntry) : ToolHandler := fun _ =>
  Except.ok (catalogToJs snapshot)

/-- The registry state right after the `MCPServer` constructor ran
`_registerSystemTools` (both built-in tools registered through
`registerTool`, in source order), before any user tool is added.  As both
built-in names live under `system.`, the snapshot seen by
`system.getTools` at this state is empty. -/
def serverInit (now : Int) : MCPServer :=
  (registerTool
    (registerTool ⟨[], [], []⟩
      "system.getTools" (systemGetToolsHandler [])
      "Pobiera listę dostępnych narzędzi" JsVal.null).2
    "system.ping" (systemPingHandler now)
    "Sprawdza status serwera" JsVal.null).2

/-! ## The MCP agent (`mcp-agent.js`)

The file contains two `MCPAgent` variants (a Claude-backed one and a
simple simulated one); their `_executePlan`, `_addToConversation` and
`processUserQuery` bodies are token-for-token identical, so one embedding
covers both. -/

/-- One plan step (`{ action, parameters }`). -/
structure Step where
  action : String
  parameters : JsVal

/-- One entry of the result sequence pushed by `_executePlan`. -/
structure StepResult where
  action : String
  parameters : JsVal
  result : JsVal

/-- The outcome of the `t`-th `mcpClient.callTool` attempt for one step is
an external event; a step's tool behaviour is therefore an oracle
`Nat → Except String JsVal` indexed by the attempt number (0-based). -/
def AttemptOracle : Type := Nat → Except String JsVal

/-- The retry loop of `_executePlan`, entered with loop variable
`retries`:

```
while (!success && retries < this.maxRetries) {
  try { stepResult = await callTool(...); success = true; }
  catch (error) {
    retries++;
    if (retries >= this.maxRetries) { stepResult = { error: error.message }; }
    else { await delay(1000); }
  }
}
```

Returns the final value of `stepResult`.  When the loop is never entered
(`maxRetries = 0`), `stepResult` keeps its declared value `undefined`. -/
def runStepFrom (tool : AttemptOracle) (maxRetries retries : Nat) : JsVal :=
  if retries < maxRetries then
    match tool retries with
    | Except.ok v => v
    | Except.error msg =>
        if retries + 1 ≥ maxRetries then JsVal.obj [("error", JsVal.str msg)]
        else runStepFrom tool maxRetries (retries + 1)
  else JsVal.undef
termination_by maxRetries - retries
decreasing_by omega

/-- Instrumented call counter for the same loop: how many times
`mcpClient.callTool` runs for one step. -/
def runStepCallsFrom (tool : AttemptOracle) (maxRetries retries : Nat) : Nat :=
  if retries < maxRetries then
    match tool retries with
    | Except.ok _ => 1
    | Except.error _ =>
        if retries + 1 ≥ maxRetries then 1
        else 1 + runStepCallsFrom tool maxRetries (retries + 1)
  else 0
termination_by maxRetries - retries
decreasing_by omega

/-- The `for` loop of `_executePlan` from step index `i`: one result pushed
per step, in order, each produced by the retry loop on that step's own
attempt oracle. -/
def executePlanFrom (tool : Nat → AttemptOracle) (maxRetries : Nat) :
    Nat → List Step → List StepResult
  | _, [] => []
  | i, step :: rest =>
      { action := step.action, parameters := step.parameters,
        result := runStepFrom (tool i) maxRetries 0 } ::
        executePlanFrom tool maxRetries (i + 1) rest

/-- `MCPAgent._executePlan(plan)` over a plan with the given step list. -/
def executePlan (tool : Nat → AttemptOracle) (maxRetries : Nat)
    (steps : List Step) : List StepResult :=
  executePlanFrom tool maxRetries 0 steps

/-- A conversation turn (`{ role, content, timestamp }`). -/
structure Turn where
  role : String
  content : String
  timestamp : Nat
deriving DecidableEq

/-- `MCPAgent._addToConversation(role, content)`:

```
this.context.conversations.push({ role, content, timestamp: Date.now() });
if (this.context.conversations.length > 20) { this.context.conversations.shift(); }
```
-/
def addToConversation (conversations : List Turn) (role content : String)
    (now : Nat) : List Turn :=
  let pushed := conversations ++ [{ role := role, content := content, timestamp := now }]
  if 20 < pushed.length then pushed.tail else pushed

/-- The four orchestration stages called by `processUserQuery`, each a
potentially-throwing external computation (`_analyzeUserQuery`,
`_generatePlan`, `_executePlan` via the tool client, and
`_generateUserResponse`): the analysis and plan are passed along as
opaque values. -/
structure AgentOps where
  analyzeUserQuery : String → Except String JsVal
  generatePlan : JsVal → Except String JsVal
  executePlanOp : JsVal → Except String JsVal
  generateUserResponse : String → JsVal → Except String String

/-- The stage pipeline of `processUserQuery` (everything inside its `try`
after the initial user-turn append, up to the synthesized response). -/
def runStages (ops : AgentOps) (userQuery : String) : Except String String := do
  let taskAnalysis ← ops.analyzeUserQuery userQuery
  let plan ← ops.generatePlan taskAnalysis
  let results ← ops.executePlanOp plan
  ops.generateUserResponse userQuery results

/-- `MCPAgent.processUserQuery(userQuery)`: appends the user turn, runs
the four stages, appends the assistant turn on success; the single `catch`
turns any stage exception into a plain-text error message returned to the
caller (with no assistant turn appended).  Returns
`(returned text, conversation history after the call)`; `now1`/`now2` are
the wall-clock readings of the two appends. -/
def processUserQuery (ops : AgentOps) (conversations : List Turn)
    (userQuery : String) (now1 now2 : Nat) : String × List Turn :=
  let afterUser := addToConversation conversations "user" userQuery now1
  match runStages ops userQuery with
  | Except.ok response =>
      (response, addToConversation afterUser "assistant" response now2)
  | Except.error msg =>
      ("Wystąpił błąd podczas przetwarzania zapytania: " ++ msg, afterUser)

/-- The request shape named by the specification for `validateRequest`,
taken together with Joi's JSON-string coercion (written from the spec's
words, as the comparison point for the Joi implementation): a value that
is — or is coerced from a JSON string into — an object whose `version`
field equals `"1.0"` and whose `action` field is (or coerces to) an
object carrying a non-empty string `name`. -/
def requestConformsJson (jp : JsonParse) (v : JsVal) : Bool :=
  match coerceToObjFields jp v with
  | some fields =>
      match getDefined fields "version", getDefined fields "action" with
      | some (JsVal.str ver), some a =>
          if ver = "1.0" then
            match coerceToObjFields jp a with
            | some afields =>
                match getDefined afields "name" with
                | some (JsVal.str n) => n ≠ ""
                | _ => false
            | none => false
          else false
      | _, _ => false
  | none => false

/-- A concrete stage assignment on which every stage succeeds (used to
instantiate theorems at concrete inputs). -/
def sampleOps : AgentOps :=
  { analyzeUserQuery := fun q => Except.ok (JsVal.str q),
    generatePlan := fun a => Except.ok a,
    executePlanOp := fun p => Except.ok p,
    generateUserResponse := fun _ _ => Except.ok "done" }

/-- A concrete stage assignment whose analysis stage throws (used to
instantiate theorems at concrete inputs). -/
def failingOps : AgentOps :=
  { analyzeUserQuery := fun _ => Except.error "boom",
    generatePlan := fun a => Except.ok a,
    executePlanOp := fun p => Except.ok p,
    generateUserResponse := fun _ _ => Except.ok "done" }

/-! ## Helper lemmas -/

/-- Concatenating anything to a non-empty literal stays non-empty. -/
theorem append_ne_empty (pre s : String) (h : 0 < pre.length) : pre ++ s ≠ "" := by
  intro heq
  have hl := congrArg String.length heq
  rw [String.length_append] at hl
  simp at hl
  omega

/-- Evaluation of the response validator on the error envelope: valid
exactly when the message is non-empty. -/
theorem joiValidateResponse_errorEnvelope (m : String) :
    joiValidateResponse (errorEnvelope m) =
      if m = "" then some "\"error\" is not allowed to be empty" else none := by
  simp [joiValidateResponse, errorEnvelope, getDefined, assocLookup, orElseO,
    joiCheckVersion, joiCheckStatus, joiCheckResult, joiCheckError, statusIs]

/-- `createErrorResponse` on a non-empty message returns the error
envelope (it does not throw). -/
theorem createErrorResponse_ok (m : String) (h : m ≠ "") :
    createErrorResponse m = Except.ok (errorEnvelope m) := by
  have hv := joiValidateResponse_errorEnvelope m
  rw [if_neg h] at hv
  simp [createErrorResponse, hv]

/-- Whenever `createSuccessResponse` returns (rather than throws), the
returned envelope passed the response schema. -/
theorem createSuccessResponse_ok_valid (r env : JsVal)
    (h : createSuccessResponse r = Except.ok env) : joiValidateResponse env = none := by
  unfold createSuccessResponse at h
  split at h
  · simp at h
  · next hv => cases h; exact hv

/-- Whenever `createErrorResponse` returns (rather than throws), the
returned envelope passed the response schema. -/
theorem createErrorResponse_ok_valid (m : String) (env : JsVal)
    (h : createErrorResponse m = Except.ok env) : joiValidateResponse env = none := by
  unfold createErrorResponse at h
  split at h
  · simp at h
  · next hv => cases h; exact hv

/-! ## C7 — envelope builders (under Joi's JSON-string coercion) -/

/-- A string that fails the brace guard is never coerced, whatever the
parse oracle. -/
theorem coerceToObjFields_no_brace (jp : JsonParse) (s : String)
    (h : startsWithBrace s = false) :
    coerceToObjFields jp (JsVal.str s) = none := by
  simp [coerceToObjFields, h]

/-- Under the never-parsing oracle no string is ever coerced. -/
theorem coerceToObjFields_noParse_str (s : String) :
    coerceToObjFields noParse (JsVal.str s) = none := by
  simp [coerceToObjFields, noParse]

/-- Evaluation of the coercing response validator on the error envelope:
no string stands at an object-typed position, so the parse oracle is
never consulted, and the envelope is valid exactly when the message is
non-empty. -/
theorem joiValidateResponseJson_errorEnvelope (jp : JsonParse) (m : String) :
    joiValidateResponseJson jp (errorEnvelope m) =
      if m = "" then some "\"error\" is not allowed to be empty" else none := by
  simp [joiValidateResponseJson, errorEnvelope, joiResponseFieldsCheck, getDefined,
    assocLookup, orElseO, joiCheckVersion, joiCheckStatus, joiCheckResultJson,
    joiCheckError, statusIs]

/-- Sequencing after a passed check. -/
theorem orElseO_none_left (b : Option String) : orElseO none b = b := rfl

/-- Sequencing before checks that all pass. -/
theorem orElseO_none_right (a : Option String) : orElseO a none = a := by
  cases a <;> rfl

/-- Evaluation of the coercing response validator on the success
envelope: valid exactly when the result is an object or a string coerced
to one; an `undefined` result counts as missing. -/
theorem joiValidateResponseJson_successEnvelope (jp : JsonParse) (r : JsVal) :
    joiValidateResponseJson jp (successEnvelope r) =
      match r with
      | JsVal.undef => some "\"result\" is required"
      | v =>
          match coerceToObjFields jp v with
          | some _ => none
          | none => some "\"result\" must be of type object" := by
  cases r <;>
    simp [joiValidateResponseJson, successEnvelope, joiResponseFieldsCheck, getDefined,
      assocLookup, joiCheckVersion, joiCheckStatus, joiCheckResultJson, joiCheckError,
      statusIs, orElseO_none_left, orElseO_none_right, coerceToObjFields]

/-- On the two concrete inputs of the counterexample the parse oracle is
never consulted (`"ok"` fails the brace guard; the empty message sits at
a string-typed position), so **every** oracle — the runtime's `JSON.parse`
included — gives the same throwing outcome. -/
theorem createResponseJson_throws_any_oracle (jp : JsonParse) :
    (∃ e, createSuccessResponseJson jp (JsVal.str "ok") = Except.error e) ∧
    (∃ e, createErrorResponseJson jp "" = Except.error e) :=
  ⟨⟨_, rfl⟩, ⟨_, rfl⟩⟩

/-- C7 (counterexample): the claim says `createSuccessResponse` and
`createErrorResponse` never throw, for any input.  In the code both
validate the envelope they build against `responseSchema` and throw on a
validation error: applied to the string result `"ok"` (not a mapping,
and not JSON-coercible — it fails Joi's brace guard, so `JSON.parse` is
never consulted), `createSuccessResponse` throws; applied to the empty
string message, `createErrorResponse` throws (Joi strings reject `""`). -/
theorem createResponseJson_nonmapping_throws :
    (∃ e, createSuccessResponseJson noParse (JsVal.str "ok") = Except.error e) ∧
    (∃ e, createErrorResponseJson noParse "" = Except.error e) :=
  createResponseJson_throws_any_oracle noParse

/-- The JSON-coercion success path, concretely: a result that is the
string `\x7b\x7d` is coerced to the empty object by the parse oracle, so
`createSuccessResponse` returns normally — the envelope (still carrying
the original string) satisfies `validateResponse`, which coerces it the
same way. -/
theorem createSuccessResponseJson_coerced_string :
    createSuccessResponseJson parseEmptyObj (JsVal.str "\x7b\x7d") =
      Except.ok (successEnvelope (JsVal.str "\x7b\x7d")) ∧
    joiValidateResponseJson parseEmptyObj (successEnvelope (JsVal.str "\x7b\x7d")) = none :=
  ⟨rfl, rfl⟩

/-- C7 (amended): for every `JSON.parse` behaviour, `createSuccessResponse`
returns a `validateResponse`-valid envelope on every mapping result and on
every string result that Joi's `convert` coerces to a mapping by JSON
parsing; on every other result — `null`, arrays, booleans, numbers,
`undefined`, and strings that do not coerce — it throws.
`createErrorResponse` returns a valid envelope exactly on non-empty
string messages and throws on the empty string. -/
theorem createResponseJson_builders (jp : JsonParse) (fs : List (String × JsVal))
    (m : String) (r : JsVal) (hm : m ≠ "") (hr : coerceToObjFields jp r = none) :
    (createSuccessResponseJson jp (JsVal.obj fs) = Except.ok (successEnvelope (JsVal.obj fs)) ∧
      joiValidateResponseJson jp (successEnvelope (JsVal.obj fs)) = none) ∧
    (∀ s afields, coerceToObjFields jp (JsVal.str s) = some afields →
      createSuccessResponseJson jp (JsVal.str s) = Except.ok (successEnvelope (JsVal.str s)) ∧
      joiValidateResponseJson jp (successEnvelope (JsVal.str s)) = none) ∧
    (∃ e, createSuccessResponseJson jp r = Except.error e) ∧
    (createErrorResponseJson jp m = Except.ok (errorEnvelope m) ∧
      joiValidateResponseJson jp (errorEnvelope m) = none) ∧
    (∃ e, createErrorResponseJson jp "" = Except.error e) := by
  have herrm : joiValidateResponseJson jp (errorEnvelope m) = none := by
    have hv := joiValidateResponseJson_errorEnvelope jp m
    rwa [if_neg hm] at hv
  refine ⟨⟨rfl, rfl⟩, ?_, ?_, ⟨?_, herrm⟩, ⟨_, rfl⟩⟩
  · intro s afields hcs
    have hval : joiValidateResponseJson jp (successEnvelope (JsVal.str s)) = none := by
      rw [joiValidateResponseJson_successEnvelope]
      show (match coerceToObjFields jp (JsVal.str s) with
        | some _ => none
        | none => some "\"result\" must be of type object") = none
      rw [hcs]
    exact ⟨by simp [createSuccessResponseJson, hval], hval⟩
  · have hval : ∃ msg, joiValidateResponseJson jp (successEnvelope r) = some msg := by
      rw [joiValidateResponseJson_successEnvelope]
      cases r with
      | undef => exact ⟨_, rfl⟩
      | obj gs => simp [coerceToObjFields] at hr
      | str s =>
          refine ⟨"\"result\" must be of type object", ?_⟩
          show (match coerceToObjFields jp (JsVal.str s) with
            | some _ => none
            | none => some "\"result\" must be of type object") = _
          rw [hr]
      | null => exact ⟨_, rfl⟩
      | bool b => exact ⟨_, rfl⟩
      | num n => exact ⟨_, rfl⟩
      | arr xs => exact ⟨_, rfl⟩
    obtain ⟨msg, hmsg⟩ := hval
    refine ⟨"Nieprawidłowa odpowiedź MCP: " ++ msg, ?_⟩
    simp [createSuccessResponseJson, hmsg]
  · simp [createErrorResponseJson, herrm]

/-- Witness for `createResponseJson_builders` at the oracle that parses
only the empty JSON object, with `fs = []`, `m = "x"`, `r = null`. -/
theorem createResponseJson_builders_witness :
    (createSuccessResponseJson parseEmptyObj (JsVal.obj []) =
        Except.ok (successEnvelope (JsVal.obj [])) ∧
      joiValidateResponseJson parseEmptyObj (successEnvelope (JsVal.obj [])) = none) ∧
    (∀ s afields, coerceToObjFields parseEmptyObj (JsVal.str s) = some afields →
      createSuccessResponseJson parseEmptyObj (JsVal.str s) =
        Except.ok (successEnvelope (JsVal.str s)) ∧
      joiValidateResponseJson parseEmptyObj (successEnvelope (JsVal.str s)) = none) ∧
    (∃ e, createSuccessResponseJson parseEmptyObj JsVal.null = Except.error e) ∧
    (createErrorResponseJson parseEmptyObj "x" = Except.ok (errorEnvelope "x") ∧
      joiValidateResponseJson parseEmptyObj (errorEnvelope "x") = none) ∧
    (∃ e, createErrorResponseJson parseEmptyObj "" = Except.error e) :=
  createResponseJson_builders parseEmptyObj [] "x" JsVal.null (by decide) rfl

/-! ## C1 — totality of `handleRequest` -/

/-- Every envelope that `handleRequestAux` returns normally was produced
by `createSuccessResponse` or `createErrorResponse`, and both validate
before returning, so it satisfies the response schema. -/
theorem handleRequestAux_ok_valid (srv : MCPServer) (request env : JsVal)
    (h : handleRequestAux srv request = Except.ok env) :
    joiValidateResponse env = none := by
  unfold handleRequestAux at h
  split at h
  · exact createErrorResponse_ok_valid _ _ h
  · split at h
    · simp at h
    · split at h
      · simp at h
      · split at h
        · exact createErrorResponse_ok_valid _ _ h
        · split at h
          · split at h
            · rename_i env' heq
              cases h
              exact createSuccessResponse_ok_valid _ _ heq
            · exact createErrorResponse_ok_valid _ _ h
          · exact createErrorResponse_ok_valid _ _ h

/-- C1: for every input value passed as the request — malformed, `null`,
`undefined`, or a request whose tool handler throws or returns a
non-mapping — `MCPServer.handleRequest` returns normally (never
propagates an exception) with an envelope satisfying `validateResponse`.
The outer `catch` absorbs anything escaping the dispatch steps, and the
generic error message it builds is never empty, so the final
`createErrorResponse` cannot itself throw. -/
theorem handleRequest_total (srv : MCPServer) (request : JsVal) :
    ∃ env, handleRequest srv request = Except.ok env ∧ joiValidateResponse env = none := by
  unfold handleRequest
  cases haux : handleRequestAux srv request with
  | ok env => exact ⟨env, rfl, handleRequestAux_ok_valid srv request env haux⟩
  | error m =>
      refine ⟨errorEnvelope ("Nieoczekiwany błąd: " ++ m), ?_, ?_⟩
      · exact createErrorResponse_ok _ (append_ne_empty "Nieoczekiwany błąd: " m (by decide))
      · have hv := joiValidateResponse_errorEnvelope ("Nieoczekiwany błąd: " ++ m)
        rwa [if_neg (append_ne_empty "Nieoczekiwany błąd: " m (by decide))] at hv

/-! ## C4 — unknown tool -/

/-- A Joi-visible field is in particular a JS-visible field. -/
theorem assocLookup_of_getDefined (fields : List (String × JsVal)) (k : String) (v : JsVal)
    (h : getDefined fields k = some v) : assocLookup fields k = some v := by
  unfold getDefined at h
  cases hal : assocLookup fields k with
  | none => rw [hal] at h; simp at h
  | some w => rw [hal] at h; cases w <;> simp_all

/-- A name is absent from an association list exactly when it is not among
the keys. -/
theorem assocLookup_eq_none_iff {α : Type} (l : List (String × α)) (k : String) :
    assocLookup l k = none ↔ k ∉ l.map Prod.fst := by
  induction l with
  | nil => simp [assocLookup]
  | cons kv rest ih =>
      obtain ⟨k', v⟩ := kv
      simp only [assocLookup, List.map_cons, List.mem_cons]
      by_cases hk : k' = k
      · subst hk
        simp
      · rw [if_neg hk, ih]
        constructor
        · intro hnone hor
          cases hor with
          | inl h => exact hk h.symm
          | inr h => exact hnone h
        · intro hnin hmem
          exact hnin (Or.inr hmem)

/-- C4: for every request that passes `validateRequest` but whose
`action.name` is not a registered tool, `handleRequest` returns an error
envelope whose error string contains the literal unregistered name, and no
tool handler is consulted: the response is the same for every server
carrying the same set of registered names, whatever its handlers do. -/
theorem handleRequest_unknown_tool (srv : MCPServer) (fields afields : List (String × JsVal))
    (s : String)
    (hval : joiValidateRequest (JsVal.obj fields) = none)
    (haction : getDefined fields "action" = some (JsVal.obj afields))
    (hname : assocLookup afields "name" = some (JsVal.str s))
    (hlook : assocLookup srv.tools s = none) :
    handleRequest srv (JsVal.obj fields) =
      Except.ok (errorEnvelope ("Nieznane narzędzie: " ++ s)) ∧
    (∃ pre post, "Nieznane narzędzie: " ++ s = pre ++ s ++ post) ∧
    (∀ srv' : MCPServer, srv'.tools.map Prod.fst = srv.tools.map Prod.fst →
      handleRequest srv' (JsVal.obj fields) = handleRequest srv (JsVal.obj fields)) := by
  have hstep : ∀ srv'' : MCPServer, assocLookup srv''.tools s = none →
      handleRequest srv'' (JsVal.obj fields) =
        Except.ok (errorEnvelope ("Nieznane narzędzie: " ++ s)) := by
    intro srv'' hl
    have hget : assocLookup fields "action" = some (JsVal.obj afields) :=
      assocLookup_of_getDefined _ _ _ haction
    unfold handleRequest handleRequestAux
    rw [hval]
    simp only [jsGet, hget, Option.getD_some]
    simp only [jsDestructureNameParams, hname, Option.getD_some]
    simp only [lookupTool, hl]
    rw [createErrorResponse_ok _ (append_ne_empty "Nieznane narzędzie: " _ (by decide))]
    simp [jsTemplate]
  refine ⟨hstep srv hlook, ⟨"Nieznane narzędzie: ", "", by simp⟩, ?_⟩
  intro srv' hnames
  have hl' : assocLookup srv'.tools s = none := by
    rw [assocLookup_eq_none_iff] at hlook ⊢
    rw [hnames]
    exact hlook
  rw [hstep srv' hl', hstep srv hlook]

/-- Witness for `handleRequest_unknown_tool`: the empty registry and the
request `{version:"1.0", action:{name:"doesNotExist", parameters:{}}}`. -/
theorem handleRequest_unknown_tool_witness :
    handleRequest ⟨[], [], []⟩
      (JsVal.obj [("version", JsVal.str "1.0"),
        ("action", JsVal.obj [("name", JsVal.str "doesNotExist"),
          ("parameters", JsVal.obj [])])]) =
      Except.ok (errorEnvelope ("Nieznane narzędzie: " ++ "doesNotExist")) ∧
    (∃ pre post, "Nieznane narzędzie: " ++ "doesNotExist" = pre ++ "doesNotExist" ++ post) ∧
    (∀ srv' : MCPServer,
      srv'.tools.map Prod.fst = (MCPServer.tools ⟨[], [], []⟩).map Prod.fst →
      handleRequest srv'
        (JsVal.obj [("version", JsVal.str "1.0"),
          ("action", JsVal.obj [("name", JsVal.str "doesNotExist"),
            ("parameters", JsVal.obj [])])]) =
      handleRequest ⟨[], [], []⟩
        (JsVal.obj [("version", JsVal.str "1.0"),
          ("action", JsVal.obj [("name", JsVal.str "doesNotExist"),
            ("parameters", JsVal.obj [])])])) :=
  handleRequest_unknown_tool ⟨[], [], []⟩
    [("version", JsVal.str "1.0"),
      ("action", JsVal.obj [("name", JsVal.str "doesNotExist"),
        ("parameters", JsVal.obj [])])]
    [("name", JsVal.str "doesNotExist"), ("parameters", JsVal.obj [])]
    "doesNotExist" rfl rfl rfl rfl

/-! ## C5 — duplicate registration -/

/-- Names that get registered are never whitespace-only: `registerTool`
rejects them before reaching the duplicate check, so the side condition of
the duplicate theorem holds for every state reachable through
registration. -/
theorem registerTool_ok_trim (srv : MCPServer) (name : String) (handler : ToolHandler)
    (description : String) (schema : JsVal)
    (h : (registerTool srv name handler description schema).1 = none) :
    jsTrim name ≠ "" := by
  intro hcontra
  simp [registerTool, hcontra] at h

/-- C5: registering an already-present name throws the duplicate-tool
error, and the state after the failed call — all three maps — is exactly
the state before it (the duplicate check precedes every mutation). -/
theorem registerTool_duplicate_rejected (srv : MCPServer) (name : String)
    (handler : ToolHandler) (description : String) (schema : JsVal)
    (hname : jsTrim name ≠ "")
    (hdup : (assocLookup srv.tools name).isSome = true) :
    registerTool srv name handler description schema =
      (some ("Narzędzie o nazwie \"" ++ name ++ "\" jest już zarejestrowane"), srv) ∧
    (registerTool srv name handler description schema).2.tools.length = srv.tools.length ∧
    assocLookup (registerTool srv name handler description schema).2.tools name =
      assocLookup srv.tools name := by
  have heq : registerTool srv name handler description schema =
      (some ("Narzędzie o nazwie \"" ++ name ++ "\" jest już zarejestrowane"), srv) := by
    unfold registerTool
    rw [if_neg hname, if_pos hdup]
  exact ⟨heq, by rw [heq], by rw [heq]⟩

/-- Witness for `registerTool_duplicate_rejected`: a registry already
holding `"echo"`. -/
theorem registerTool_duplicate_rejected_witness :
    registerTool ⟨[("echo", fun p => Except.ok p)], [("echo", "echo tool")], []⟩
      "echo" (fun p => Except.ok p) "echo tool again" JsVal.null =
      (some ("Narzędzie o nazwie \"" ++ "echo" ++ "\" jest już zarejestrowane"),
        ⟨[("echo", fun p => Except.ok p)], [("echo", "echo tool")], []⟩) ∧
    (registerTool ⟨[("echo", fun p => Except.ok p)], [("echo", "echo tool")], []⟩
      "echo" (fun p => Except.ok p) "echo tool again" JsVal.null).2.tools.length =
      (MCPServer.tools ⟨[("echo", fun p => Except.ok p)], [("echo", "echo tool")], []⟩).length ∧
    assocLookup (registerTool ⟨[("echo", fun p => Except.ok p)], [("echo", "echo tool")], []⟩
      "echo" (fun p => Except.ok p) "echo tool again" JsVal.null).2.tools "echo" =
      assocLookup (MCPServer.tools ⟨[("echo", fun p => Except.ok p)], [("echo", "echo tool")], []⟩) "echo" :=
  registerTool_duplicate_rejected ⟨[("echo", fun p => Except.ok p)], [("echo", "echo tool")], []⟩
    "echo" (fun p => Except.ok p) "echo tool again" JsVal.null (by decide) rfl

/-! ## C9 — request validation (under Joi's JSON-string coercion) -/

/-- The coercing request validator accepts `undefined` for every parse
oracle: the Joi root schema is implicitly optional and the oracle is
never consulted on `undefined`. -/
theorem joiValidateRequestJson_undef (jp : JsonParse) :
    joiValidateRequestJson jp JsVal.undef = none := rfl

/-- C9 (counterexample): the claim says every value that is not a
well-shaped request object — the `undefined` value included — is rejected
by `validateRequest`.  But the Joi root schema is not `.required()`, so
`requestSchema.validate(undefined)` reports no error and `validateRequest`
returns `true` on `undefined`, whatever `JSON.parse` does. -/
theorem validateRequestJson_undefined_passes :
    joiValidateRequestJson noParse JsVal.undef = none ∧
    requestConformsJson noParse JsVal.undef = false :=
  ⟨joiValidateRequestJson_undef noParse, rfl⟩

/-- If the version rule reports no error, the field was exactly the
string `"1.0"`. -/
theorem joiCheckVersion_none (o : Option JsVal) (h : joiCheckVersion o = none) :
    o = some (JsVal.str "1.0") := by
  cases o with
  | none => simp [joiCheckVersion] at h
  | some v =>
      cases v with
      | str s =>
          by_cases hs : s = "1.0"
          · rw [hs]
          · simp [joiCheckVersion, hs] at h
      | undef => simp [joiCheckVersion] at h
      | null => simp [joiCheckVersion] at h
      | bool b => simp [joiCheckVersion] at h
      | num n => simp [joiCheckVersion] at h
      | arr xs => simp [joiCheckVersion] at h
      | obj fs => simp [joiCheckVersion] at h

/-- If the name rule reports no error, the field was a non-empty string. -/
theorem joiCheckName_none (o : Option JsVal) (h : joiCheckName o = none) :
    ∃ n, o = some (JsVal.str n) ∧ n ≠ "" := by
  cases o with
  | none => simp [joiCheckName] at h
  | some v =>
      cases v with
      | str s =>
          by_cases hs : s = ""
          · simp [joiCheckName, hs] at h
          · exact ⟨s, rfl, hs⟩
      | undef => simp [joiCheckName] at h
      | null => simp [joiCheckName] at h
      | bool b => simp [joiCheckName] at h
      | num n => simp [joiCheckName] at h
      | arr xs => simp [joiCheckName] at h
      | obj fs => simp [joiCheckName] at h

/-- Abort-early sequencing succeeds only when both checks succeed. -/
theorem orElseO_eq_none (a b : Option String) (h : orElseO a b = none) :
    a = none ∧ b = none := by
  cases a with
  | some m => simp [orElseO] at h
  | none => exact ⟨rfl, by simpa [orElseO] using h⟩

/-- If the coerced action rule reports no error, the field was present
and is — or coerces to — an object whose `name` is a non-empty string. -/
theorem joiCheckActionJson_none (jp : JsonParse) (o : Option JsVal)
    (h : joiCheckActionJson jp o = none) :
    ∃ a afields n, o = some a ∧ coerceToObjFields jp a = some afields ∧
      getDefined afields "name" = some (JsVal.str n) ∧ n ≠ "" := by
  cases o with
  | none => simp [joiCheckActionJson] at h
  | some a =>
      cases hc : coerceToObjFields jp a with
      | none =>
          simp only [joiCheckActionJson, hc] at h
          exact Option.noConfusion h
      | some afields =>
          simp only [joiCheckActionJson, hc] at h
          split at h
          · exact Option.noConfusion h
          · obtain ⟨hn, _⟩ := orElseO_eq_none _ _ h
            obtain ⟨n, hnm, hne⟩ := joiCheckName_none _ hn
            exact ⟨a, afields, n, rfl, hc, hnm, hne⟩

/-- What the keys checks of the request schema guarantee about a coerced
request object. -/
theorem joiRequestFieldsCheck_none (jp : JsonParse) (fields : List (String × JsVal))
    (h : joiRequestFieldsCheck jp fields = none) :
    getDefined fields "version" = some (JsVal.str "1.0") ∧
    ∃ a afields n, getDefined fields "action" = some a ∧
      coerceToObjFields jp a = some afields ∧
      getDefined afields "name" = some (JsVal.str n) ∧ n ≠ "" := by
  unfold joiRequestFieldsCheck at h
  split at h
  · exact Option.noConfusion h
  · obtain ⟨hv, ha⟩ := orElseO_eq_none _ _ h
    exact ⟨joiCheckVersion_none _ hv, joiCheckActionJson_none jp _ ha⟩

/-- What passing the coercing Joi request schema guarantees: the input is
either `undefined` or conforms — after the JSON-string coercion — to the
spec's request shape. -/
theorem joiValidateRequestJson_none_conforms (jp : JsonParse) (v : JsVal)
    (h : joiValidateRequestJson jp v = none) :
    v = JsVal.undef ∨ requestConformsJson jp v = true := by
  cases v with
  | undef => exact Or.inl rfl
  | null => exact Option.noConfusion h
  | bool b => exact Option.noConfusion h
  | num n => exact Option.noConfusion h
  | arr xs => exact Option.noConfusion h
  | obj fields =>
      refine Or.inr ?_
      replace h : joiRequestFieldsCheck jp fields = none := h
      obtain ⟨hver, a, afields, n, hact, hca, hnm, hne⟩ :=
        joiRequestFieldsCheck_none jp fields h
      have hcroot : coerceToObjFields jp (JsVal.obj fields) = some fields := rfl
      simp [requestConformsJson, hcroot, hver, hact, hca, hnm, hne]
  | str s =>
      refine Or.inr ?_
      cases hc : coerceToObjFields jp (JsVal.str s) with
      | none =>
          replace h : (match coerceToObjFields jp (JsVal.str s) with
            | some fields => joiRequestFieldsCheck jp fields
            | none => some "\"value\" must be of type object") = none := h
          rw [hc] at h
          exact Option.noConfusion h
      | some fields =>
          replace h : (match coerceToObjFields jp (JsVal.str s) with
            | some fields => joiRequestFieldsCheck jp fields
            | none => some "\"value\" must be of type object") = none := h
          rw [hc] at h
          replace h : joiRequestFieldsCheck jp fields = none := h
          obtain ⟨hver, a, afields, n, hact, hca, hnm, hne⟩ :=
            joiRequestFieldsCheck_none jp fields h
          simp [requestConformsJson, hc, hver, hact, hca, hnm, hne]

/-- C9 (amended): for every `JSON.parse` behaviour and every value
**other than `undefined`** that does not conform to the request shape
even after Joi's JSON-string coercion — i.e. that neither is nor coerces
to an object with `version = "1.0"` and an `action` (itself possibly
coerced from a JSON string) carrying a non-empty string `name` —
`validateRequest` returns a validation error message rather than `true`.
`undefined` itself slips through because the Joi root schema is
implicitly optional; conforming JSON strings and objects whose `action`
is a conforming JSON string really do pass, which forces the coercion
clause in this amendment. -/
theorem validateRequestJson_rejects_nonconforming (jp : JsonParse) (v : JsVal)
    (hne : v ≠ JsVal.undef) (hnc : requestConformsJson jp v = false) :
    ∃ m, joiValidateRequestJson jp v = some m := by
  cases hres : joiValidateRequestJson jp v with
  | some m => exact ⟨m, rfl⟩
  | none =>
      cases joiValidateRequestJson_none_conforms jp v hres with
      | inl h => exact absurd h hne
      | inr h => rw [h] at hnc; exact Bool.noConfusion hnc

/-- Witness for `validateRequestJson_rejects_nonconforming` at the `null`
input (rejected under every oracle; instantiated at `noParse`). -/
theorem validateRequestJson_rejects_nonconforming_witness :
    ∃ m, joiValidateRequestJson noParse JsVal.null = some m :=
  validateRequestJson_rejects_nonconforming noParse JsVal.null (by simp) rfl

/-- The JSON-coercion acceptance path, concretely: a request whose
`action` is the string `\x7b\x7d` — not an object — passes the coercing
validator once the oracle parses it, exactly as the runtime does. -/
theorem validateRequestJson_coerced_action :
    joiValidateRequestJson parseEmptyObj
      (JsVal.obj [("version", JsVal.str "1.0"),
        ("action", JsVal.obj [("name", JsVal.str "x"),
          ("parameters", JsVal.str "\x7b\x7d")])]) = none ∧
    requestConformsJson parseEmptyObj
      (JsVal.obj [("version", JsVal.str "1.0"),
        ("action", JsVal.obj [("name", JsVal.str "x"),
          ("parameters", JsVal.str "\x7b\x7d")])]) = true :=
  ⟨rfl, rfl⟩

/-! ## The coercion-free validators as an oracle instantiation

The validators used by the dispatch-layer model (`joiValidateRequest`,
`joiValidateResponse`) are the faithful coercing validators at the
never-parsing oracle: their only divergence from the runtime is on
strings that `JSON.parse` would accept, which cannot change the verdicts
of the dispatch-layer claims. -/

/-- `joiCheckParametersJson` at `noParse` is the coercion-free rule. -/
theorem joiCheckParametersJson_noParse (o : Option JsVal) :
    joiCheckParametersJson noParse o = joiCheckParameters o := by
  cases o with
  | none => rfl
  | some p =>
      cases p with
      | str s =>
          have hcs := coerceToObjFields_noParse_str s
          simp only [joiCheckParametersJson, hcs]
          rfl
      | obj fields => rfl
      | undef => rfl
      | null => rfl
      | bool b => rfl
      | num n => rfl
      | arr xs => rfl

/-- `joiCheckActionJson` at `noParse` is the coercion-free rule. -/
theorem joiCheckActionJson_noParse (o : Option JsVal) :
    joiCheckActionJson noParse o = joiCheckAction o := by
  cases o with
  | none => rfl
  | some a =>
      cases a with
      | obj afields =>
          simp only [joiCheckActionJson, joiCheckAction, coerceToObjFields]
          rw [joiCheckParametersJson_noParse]
      | str s =>
          have hcs := coerceToObjFields_noParse_str s
          simp only [joiCheckActionJson, hcs]
          rfl
      | undef => rfl
      | null => rfl
      | bool b => rfl
      | num n => rfl
      | arr xs => rfl

/-- The dispatch layer's request validator is the faithful one at the
never-parsing oracle. -/
theorem joiValidateRequestJson_noParse (v : JsVal) :
    joiValidateRequestJson noParse v = joiValidateRequest v := by
  cases v with
  | undef => rfl
  | obj fields =>
      simp only [joiValidateRequestJson, joiValidateRequest, joiRequestFieldsCheck]
      rw [joiCheckActionJson_noParse]
  | str s =>
      have hcs := coerceToObjFields_noParse_str s
      simp only [joiValidateRequestJson, hcs]
      rfl
  | null => rfl
  | bool b => rfl
  | num n => rfl
  | arr xs => rfl

/-- `joiCheckResultJson` at `noParse` is the coercion-free rule. -/
theorem joiCheckResultJson_noParse (status result : Option JsVal) :
    joiCheckResultJson noParse status result = joiCheckResult status result := by
  unfold joiCheckResultJson joiCheckResult
  by_cases hst : statusIs status "success" = true
  · rw [if_pos hst, if_pos hst]
    cases result with
    | none => rfl
    | some r =>
        cases r with
        | obj fields => rfl
        | str s =>
            have hcs := coerceToObjFields_noParse_str s
            simp only [hcs]
        | undef => rfl
        | null => rfl
        | bool b => rfl
        | num n => rfl
        | arr xs => rfl
  · rw [if_neg hst, if_neg hst]

/-- The dispatch layer's response validator is the faithful one at the
never-parsing oracle. -/
theorem joiValidateResponseJson_noParse (v : JsVal) :
    joiValidateResponseJson noParse v = joiValidateResponse v := by
  cases v with
  | undef => rfl
  | obj fields =>
      simp only [joiValidateResponseJson, joiValidateResponse, joiResponseFieldsCheck]
      rw [joiCheckResultJson_noParse]
  | str s =>
      have hcs := coerceToObjFields_noParse_str s
      simp only [joiValidateResponseJson, hcs]
      rfl
  | null => rfl
  | bool b => rfl
  | num n => rfl
  | arr xs => rfl

/-! ## C6 — bounded conversation -/

/-- Zeta-reduced form of `_addToConversation` (the pushed list written
out). -/
theorem addToConversation_eq (conv : List Turn) (role content : String) (now : Nat) :
    addToConversation conv role content now =
      if 20 < (conv ++ [({ role := role, content := content, timestamp := now } : Turn)]).length
      then (conv ++ [({ role := role, content := content, timestamp := now } : Turn)]).tail
      else conv ++ [({ role := role, content := content, timestamp := now } : Turn)] := rfl

/-- One append preserves the 20-turn bound. -/
theorem addToConversation_length_le (conv : List Turn) (role content : String)
    (now : Nat) (h : conv.length ≤ 20) :
    (addToConversation conv role content now).length ≤ 20 := by
  rw [addToConversation_eq]
  split
  · simp only [List.length_tail, List.length_append, List.length_cons, List.length_nil]
    omega
  · rename_i hle
    simp only [List.length_append, List.length_cons, List.length_nil] at hle ⊢
    omega

/-- Any sequence of appends starting within the bound stays within it. -/
theorem addToConversation_foldl_le (appends : List (String × String × Nat)) :
    ∀ conv : List Turn, conv.length ≤ 20 →
      (appends.foldl (fun acc o => addToConversation acc o.1 o.2.1 o.2.2) conv).length ≤ 20 := by
  induction appends with
  | nil => intro conv h; simpa using h
  | cons op rest ih =>
      intro conv h
      simp only [List.foldl_cons]
      exact ih _ (addToConversation_length_le _ _ _ _ h)

/-- C6: starting from any history within the 20-turn cap, an append keeps
the history within the cap; at exactly 20 turns it evicts exactly the
single oldest turn and appends the new one at the end (preserving the
relative order of the remaining turns); below the cap it is a plain
append; and any sequence of appends keeps the history within the cap. -/
theorem conversation_capped (conv : List Turn) (role content : String) (now : Nat)
    (h : conv.length ≤ 20) :
    (addToConversation conv role content now).length ≤ 20 ∧
    (conv.length = 20 →
      addToConversation conv role content now =
        conv.tail ++ [{ role := role, content := content, timestamp := now }]) ∧
    (conv.length < 20 →
      addToConversation conv role content now =
        conv ++ [{ role := role, content := content, timestamp := now }]) ∧
    (∀ appends : List (String × String × Nat),
      (appends.foldl (fun acc o => addToConversation acc o.1 o.2.1 o.2.2) conv).length ≤ 20) := by
  refine ⟨addToConversation_length_le conv role content now h, ?_, ?_,
    fun appends => addToConversation_foldl_le appends conv h⟩
  · intro h20
    rw [addToConversation_eq]
    rw [if_pos (by simp [h20])]
    cases conv with
    | nil => simp at h20
    | cons a l => simp
  · intro hlt
    rw [addToConversation_eq]
    rw [if_neg (by simp; omega)]

/-- Witness for `conversation_capped`: a history of exactly 20 turns. -/
theorem conversation_capped_witness :
    (addToConversation (List.replicate 20 ⟨"user", "x", 0⟩) "assistant" "y" 1).length ≤ 20 ∧
    ((List.replicate 20 (⟨"user", "x", 0⟩ : Turn)).length = 20 →
      addToConversation (List.replicate 20 ⟨"user", "x", 0⟩) "assistant" "y" 1 =
        (List.replicate 20 (⟨"user", "x", 0⟩ : Turn)).tail ++
          [{ role := "assistant", content := "y", timestamp := 1 }]) ∧
    ((List.replicate 20 (⟨"user", "x", 0⟩ : Turn)).length < 20 →
      addToConversation (List.replicate 20 ⟨"user", "x", 0⟩) "assistant" "y" 1 =
        List.replicate 20 (⟨"user", "x", 0⟩ : Turn) ++
          [{ role := "assistant", content := "y", timestamp := 1 }]) ∧
    (∀ appends : List (String × String × Nat),
      (appends.foldl (fun acc o => addToConversation acc o.1 o.2.1 o.2.2)
        (List.replicate 20 (⟨"user", "x", 0⟩ : Turn))).length ≤ 20) :=
  conversation_capped (List.replicate 20 ⟨"user", "x", 0⟩) "assistant" "y" 1 (by simp)

/-! ## C2, C3 — plan execution and retry loop -/

/-- Unrolling equation of the retry loop. -/
theorem runStepFrom_eq (tool : AttemptOracle) (mr r : Nat) :
    runStepFrom tool mr r =
      if r < mr then
        match tool r with
        | Except.ok v => v
        | Except.error msg =>
            if r + 1 ≥ mr then JsVal.obj [("error", JsVal.str msg)]
            else runStepFrom tool mr (r + 1)
      else JsVal.undef := by
  rw [runStepFrom]

/-- Unrolling equation of the instrumented call counter. -/
theorem runStepCallsFrom_eq (tool : AttemptOracle) (mr r : Nat) :
    runStepCallsFrom tool mr r =
      if r < mr then
        match tool r with
        | Except.ok _ => 1
        | Except.error _ =>
            if r + 1 ≥ mr then 1
            else 1 + runStepCallsFrom tool mr (r + 1)
      else 0 := by
  rw [runStepCallsFrom]

/-- If every attempt up to the retry bound fails, the loop records an
error object carrying the message of the final attempt. -/
theorem runStepFrom_all_fail (tool : AttemptOracle) (maxRetries : Nat) (m : String)
    (hfail : ∀ t, t < maxRetries → ∃ e, tool t = Except.error e)
    (hlast : tool (maxRetries - 1) = Except.error m) :
    ∀ retries, retries < maxRetries →
      runStepFrom tool maxRetries retries = JsVal.obj [("error", JsVal.str m)] := by
  have key : ∀ d r, maxRetries - r = d → r < maxRetries →
      runStepFrom tool maxRetries r = JsVal.obj [("error", JsVal.str m)] := by
    intro d
    induction d with
    | zero => intro r hd hlt; omega
    | succ d ih =>
        intro r hd hlt
        obtain ⟨e, he⟩ := hfail r hlt
        rw [runStepFrom_eq, if_pos hlt, he]
        dsimp only
        by_cases hge : r + 1 ≥ maxRetries
        · rw [if_pos hge]
          have hr : r = maxRetries - 1 := by omega
          rw [hr, hlast] at he
          cases he
          rfl
        · rw [if_neg hge]
          exact ih (r + 1) (by omega) (by omega)
  intro r hlt
  exact key (maxRetries - r) r rfl hlt

/-- The loop's outcome depends only on the attempts below the retry
bound: the tool is never consulted beyond them. -/
theorem runStepFrom_congr (tool tool' : AttemptOracle) (maxRetries : Nat)
    (hagree : ∀ t, t < maxRetries → tool t = tool' t) :
    ∀ retries, runStepFrom tool maxRetries retries =
      runStepFrom tool' maxRetries retries := by
  have key : ∀ d r, maxRetries - r = d →
      runStepFrom tool maxRetries r = runStepFrom tool' maxRetries r := by
    intro d
    induction d with
    | zero =>
        intro r hd
        have hnlt : ¬ r < maxRetries := by omega
        rw [runStepFrom_eq tool maxRetries r, runStepFrom_eq tool' maxRetries r,
          if_neg hnlt, if_neg hnlt]
    | succ d ih =>
        intro r hd
        by_cases hlt : r < maxRetries
        · rw [runStepFrom_eq tool maxRetries r, runStepFrom_eq tool' maxRetries r,
            if_pos hlt, if_pos hlt, hagree r hlt]
          cases h' : tool' r with
          | ok v => rfl
          | error e =>
              dsimp only
              by_cases hge : r + 1 ≥ maxRetries
              · rw [if_pos hge, if_pos hge]
              · rw [if_neg hge, if_neg hge, ih (r + 1) (by omega)]
        · rw [runStepFrom_eq tool maxRetries r, runStepFrom_eq tool' maxRetries r,
            if_neg hlt, if_neg hlt]
  intro r
  exact key (maxRetries - r) r rfl

/-- The loop performs at most `maxRetries - retries` tool calls. -/
theorem runStepCallsFrom_le (tool : AttemptOracle) (maxRetries : Nat) :
    ∀ retries, runStepCallsFrom tool maxRetries retries ≤ maxRetries - retries := by
  have key : ∀ d r, maxRetries - r = d →
      runStepCallsFrom tool maxRetries r ≤ maxRetries - r := by
    intro d
    induction d with
    | zero =>
        intro r hd
        have hnlt : ¬ r < maxRetries := by omega
        rw [runStepCallsFrom_eq, if_neg hnlt]
        omega
    | succ d ih =>
        intro r hd
        by_cases hlt : r < maxRetries
        · rw [runStepCallsFrom_eq, if_pos hlt]
          cases h' : tool r with
          | ok v => dsimp only; omega
          | error e =>
              dsimp only
              by_cases hge : r + 1 ≥ maxRetries
              · rw [if_pos hge]; omega
              · rw [if_neg hge]
                have := ih (r + 1) (by omega)
                omega
        · rw [runStepCallsFrom_eq, if_neg hlt]
          omega
  intro r
  exact key (maxRetries - r) r rfl

/-- `_executePlan` yields one entry per plan step. -/
theorem executePlanFrom_length (tool : Nat → AttemptOracle) (mr : Nat) :
    ∀ (steps : List Step) (i : Nat),
      (executePlanFrom tool mr i steps).length = steps.length := by
  intro steps
  induction steps with
  | nil => intro i; rfl
  | cons s rest ih => intro i; simp [executePlanFrom, ih]

/-- The `j`-th entry of the result sequence comes from the `j`-th plan
step, carrying its action and parameters and the retry-loop outcome for
that step's own tool oracle. -/
theorem executePlanFrom_getD (tool : Nat → AttemptOracle) (mr : Nat) :
    ∀ (steps : List Step) (i j : Nat) (d : StepResult) (ds : Step), j < steps.length →
      (executePlanFrom tool mr i steps).getD j d =
        { action := (steps.getD j ds).action,
          parameters := (steps.getD j ds).parameters,
          result := runStepFrom (tool (i + j)) mr 0 } := by
  intro steps
  induction steps with
  | nil => intro i j d ds hj; simp at hj
  | cons s rest ih =>
      intro i j d ds hj
      cases j with
      | zero => simp [executePlanFrom, List.getD_cons_zero]
      | succ j' =>
          have hj' : j' < rest.length := by simpa using hj
          simp only [executePlanFrom, List.getD_cons_succ]
          rw [ih (i + 1) j' d ds hj']
          have harith : i + 1 + j' = i + (j' + 1) := by omega
          rw [harith]

/-- C2: executing a plan with N steps produces exactly N result entries in
plan order; the entry of each step carries that step's action and
parameters; and a step all of whose attempts fail is recorded as an object
with an `error` field holding the last failure message — while every
other step, before or after it, is still executed and recorded the same
way (each entry depends only on its own step's attempts). -/
theorem executePlan_result_sequence (tool : Nat → AttemptOracle) (maxRetries : Nat)
    (steps : List Step) (hmr : 0 < maxRetries) :
    (executePlan tool maxRetries steps).length = steps.length ∧
    (∀ j (d : StepResult) (ds : Step), j < steps.length →
      (executePlan tool maxRetries steps).getD j d =
        { action := (steps.getD j ds).action,
          parameters := (steps.getD j ds).parameters,
          result := runStepFrom (tool j) maxRetries 0 }) ∧
    (∀ j (d : StepResult) (ds : Step) (m : String), j < steps.length →
      (∀ t, t < maxRetries → ∃ e, tool j t = Except.error e) →
      tool j (maxRetries - 1) = Except.error m →
      ((executePlan tool maxRetries steps).getD j d).result =
        JsVal.obj [("error", JsVal.str m)]) := by
  refine ⟨executePlanFrom_length tool maxRetries steps 0, ?_, ?_⟩
  · intro j d ds hj
    have h := executePlanFrom_getD tool maxRetries steps 0 j d ds hj
    rw [Nat.zero_add] at h
    exact h
  · intro j d ds m hj hfail hlast
    have h := executePlanFrom_getD tool maxRetries steps 0 j d ds hj
    rw [Nat.zero_add] at h
    have herr := runStepFrom_all_fail (tool j) maxRetries m hfail hlast 0 hmr
    show ((executePlanFrom tool maxRetries 0 steps).getD j d).result = _
    rw [h]
    exact herr

/-- Witness for `executePlan_result_sequence`: a one-step plan whose tool
fails on every attempt with message `"boom"`, `maxRetries = 3`. -/
theorem executePlan_result_sequence_witness :
    (executePlan (fun _ _ => (Except.error "boom" : Except String JsVal)) 3
      [{ action := "analyzeText", parameters := JsVal.obj [] }]).length =
      ([{ action := "analyzeText", parameters := JsVal.obj [] }] : List Step).length ∧
    (∀ j (d : StepResult) (ds : Step),
      j < ([{ action := "analyzeText", parameters := JsVal.obj [] }] : List Step).length →
      (executePlan (fun _ _ => (Except.error "boom" : Except String JsVal)) 3
        [{ action := "analyzeText", parameters := JsVal.obj [] }]).getD j d =
        { action := (([{ action := "analyzeText", parameters := JsVal.obj [] }] :
            List Step).getD j ds).action,
          parameters := (([{ action := "analyzeText", parameters := JsVal.obj [] }] :
            List Step).getD j ds).parameters,
          result := runStepFrom
            ((fun _ _ => (Except.error "boom" : Except String JsVal)) j) 3 0 }) ∧
    (∀ j (d : StepResult) (ds : Step) (m : String),
      j < ([{ action := "analyzeText", parameters := JsVal.obj [] }] : List Step).length →
      (∀ t, t < 3 →
        ∃ e, (fun _ _ => (Except.error "boom" : Except String JsVal)) j t = Except.error e) →
      (fun _ _ => (Except.error "boom" : Except String JsVal)) j (3 - 1) = Except.error m →
      ((executePlan (fun _ _ => (Except.error "boom" : Except String JsVal)) 3
        [{ action := "analyzeText", parameters := JsVal.obj [] }]).getD j d).result =
        JsVal.obj [("error", JsVal.str m)]) :=
  executePlan_result_sequence (fun _ _ => (Except.error "boom" : Except String JsVal)) 3
    [{ action := "analyzeText", parameters := JsVal.obj [] }] (by decide)

/-- C3: with `maxRetries = 3` the loop makes at most 3 tool calls and its
outcome depends only on the first 3 attempt results; a step failing on
attempts 1 and 2 and succeeding on attempt 3 records the successful tool
output unchanged (in particular, no `error` field is added to it); a step
failing on all 3 attempts records an object with an `error` field holding
the third attempt's message. -/
theorem step_retry_bound_three (tool tool' : AttemptOracle) (m0 m1 m2 : String) (v : JsVal)
    (hagree : ∀ t, t < 3 → tool t = tool' t) :
    runStepCallsFrom tool 3 0 ≤ 3 ∧
    runStepFrom tool 3 0 = runStepFrom tool' 3 0 ∧
    (tool 0 = Except.error m0 → tool 1 = Except.error m1 → tool 2 = Except.ok v →
      runStepFrom tool 3 0 = v) ∧
    (tool 0 = Except.error m0 → tool 1 = Except.error m1 → tool 2 = Except.error m2 →
      runStepFrom tool 3 0 = JsVal.obj [("error", JsVal.str m2)]) := by
  refine ⟨runStepCallsFrom_le tool 3 0, runStepFrom_congr tool tool' 3 hagree 0, ?_, ?_⟩
  · intro h0 h1 h2
    rw [runStepFrom_eq tool 3 0, if_pos (by omega), h0]
    dsimp only
    rw [if_neg (by omega)]
    rw [runStepFrom_eq tool 3 1, if_pos (by omega), h1]
    dsimp only
    rw [if_neg (by omega)]
    rw [runStepFrom_eq tool 3 2, if_pos (by omega), h2]
  · intro h0 h1 h2
    rw [runStepFrom_eq tool 3 0, if_pos (by omega), h0]
    dsimp only
    rw [if_neg (by omega)]
    rw [runStepFrom_eq tool 3 1, if_pos (by omega), h1]
    dsimp only
    rw [if_neg (by omega)]
    rw [runStepFrom_eq tool 3 2, if_pos (by omega), h2]
    dsimp only
    rw [if_pos (by omega)]

/-- Witness for `step_retry_bound_three`: a tool failing twice and
succeeding on the third attempt. -/
theorem step_retry_bound_three_witness :
    runStepCallsFrom (fun t => if t = 2 then Except.ok (JsVal.obj []) else Except.error "boom") 3 0 ≤ 3 ∧
    runStepFrom (fun t => if t = 2 then Except.ok (JsVal.obj []) else Except.error "boom") 3 0 =
      runStepFrom (fun t => if t = 2 then Except.ok (JsVal.obj []) else Except.error "boom") 3 0 ∧
    ((fun t => if t = 2 then Except.ok (JsVal.obj []) else Except.error "boom") 0 = Except.error "boom" →
      (fun t => if t = 2 then Except.ok (JsVal.obj []) else Except.error "boom") 1 = Except.error "boom" →
      (fun t => if t = 2 then Except.ok (JsVal.obj []) else Except.error "boom") 2 = Except.ok (JsVal.obj []) →
      runStepFrom (fun t => if t = 2 then Except.ok (JsVal.obj []) else Except.error "boom") 3 0 = JsVal.obj []) ∧
    ((fun t => if t = 2 then Except.ok (JsVal.obj []) else Except.error "boom") 0 = Except.error "boom" →
      (fun t => if t = 2 then Except.ok (JsVal.obj []) else Except.error "boom") 1 = Except.error "boom" →
      (fun t => if t = 2 then Except.ok (JsVal.obj []) else Except.error "boom") 2 = Except.error "bang" →
      runStepFrom (fun t => if t = 2 then Except.ok (JsVal.obj []) else Except.error "boom") 3 0 =
        JsVal.obj [("error", JsVal.str "bang")]) :=
  step_retry_bound_three
    (fun t => if t = 2 then Except.ok (JsVal.obj []) else Except.error "boom")
    (fun t => if t = 2 then Except.ok (JsVal.obj []) else Except.error "boom")
    "boom" "boom" "bang" (JsVal.obj []) (fun _ _ => rfl)

/-! ## C10 — `processUserQuery` and the conversation history -/

/-- C10 (counterexample): the claim says a failed query grows the history
by exactly one turn.  At a history already holding 20 turns, a query whose
analysis stage throws leaves the history at 20 turns, not 21: the
user-turn append evicts the oldest turn under the FIFO cap, so the
history does not grow at all. -/
theorem processUserQuery_no_growth_at_cap :
    (processUserQuery failingOps (List.replicate 20 ⟨"user", "x", 0⟩) "q" 1 2).2.length = 20 ∧
    (List.replicate 20 (⟨"user", "x", 0⟩ : Turn)).length = 20 ∧
    (processUserQuery failingOps (List.replicate 20 ⟨"user", "x", 0⟩) "q" 1 2).2.length ≠
      (List.replicate 20 (⟨"user", "x", 0⟩ : Turn)).length + 1 := by
  refine ⟨rfl, rfl, by decide⟩

/-- C10 (amended): `processUserQuery` appends the user turn (through the
capped FIFO append) before any stage runs.  When a stage throws, the
returned text is the plain-text error message and it is **not** appended
as an assistant turn; when all stages succeed, the synthesized response is
appended as an assistant turn.  When the starting history is below the
cap (at most 18 entries), a failed query therefore grows the history by
exactly one turn and a successful one by exactly two; at the 20-entry cap
the FIFO eviction absorbs the growth (see the counterexample). -/
theorem processUserQuery_history (ops : AgentOps) (conversations : List Turn)
    (userQuery : String) (now1 now2 : Nat)
    (hlen : conversations.length ≤ 18) :
    (∀ msg, runStages ops userQuery = Except.error msg →
      (processUserQuery ops conversations userQuery now1 now2).1 =
        "Wystąpił błąd podczas przetwarzania zapytania: " ++ msg ∧
      (processUserQuery ops conversations userQuery now1 now2).2 =
        conversations ++ [{ role := "user", content := userQuery, timestamp := now1 }] ∧
      (processUserQuery ops conversations userQuery now1 now2).2.length =
        conversations.length + 1) ∧
    (∀ response, runStages ops userQuery = Except.ok response →
      (processUserQuery ops conversations userQuery now1 now2).1 = response ∧
      (processUserQuery ops conversations userQuery now1 now2).2 =
        conversations ++ [{ role := "user", content := userQuery, timestamp := now1 },
          { role := "assistant", content := response, timestamp := now2 }] ∧
      (processUserQuery ops conversations userQuery now1 now2).2.length =
        conversations.length + 2) := by
  have huser : addToConversation conversations "user" userQuery now1 =
      conversations ++ [{ role := "user", content := userQuery, timestamp := now1 }] := by
    rw [addToConversation_eq]
    rw [if_neg (by simp; omega)]
  constructor
  · intro msg hrun
    simp only [processUserQuery, hrun, huser]
    simp [List.length_append]
  · intro response hrun
    have hassist : addToConversation
        (conversations ++ [{ role := "user", content := userQuery, timestamp := now1 }])
        "assistant" response now2 =
        conversations ++ [{ role := "user", content := userQuery, timestamp := now1 },
          { role := "assistant", content := response, timestamp := now2 }] := by
      rw [addToConversation_eq]
      rw [if_neg (by simp; omega)]
      simp
    simp only [processUserQuery, hrun, huser, hassist]
    simp [List.length_append]

/-- Witness for `processUserQuery_history`: the empty history with the
always-failing stages and with the always-succeeding stages. -/
theorem processUserQuery_history_witness :
    ((∀ msg, runStages failingOps "q" = Except.error msg →
      (processUserQuery failingOps [] "q" 0 1).1 =
        "Wystąpił błąd podczas przetwarzania zapytania: " ++ msg ∧
      (processUserQuery failingOps [] "q" 0 1).2 =
        [] ++ [{ role := "user", content := "q", timestamp := 0 }] ∧
      (processUserQuery failingOps [] "q" 0 1).2.length = (([] : List Turn)).length + 1) ∧
    (∀ response, runStages failingOps "q" = Except.ok response →
      (processUserQuery failingOps [] "q" 0 1).1 = response ∧
      (processUserQuery failingOps [] "q" 0 1).2 =
        [] ++ [{ role := "user", content := "q", timestamp := 0 },
          { role := "assistant", content := response, timestamp := 1 }] ∧
      (processUserQuery failingOps [] "q" 0 1).2.length = (([] : List Turn)).length + 2)) ∧
    ((∀ msg, runStages sampleOps "q" = Except.error msg →
      (processUserQuery sampleOps [] "q" 0 1).1 =
        "Wystąpił błąd podczas przetwarzania zapytania: " ++ msg ∧
      (processUserQuery sampleOps [] "q" 0 1).2 =
        [] ++ [{ role := "user", content := "q", timestamp := 0 }] ∧
      (processUserQuery sampleOps [] "q" 0 1).2.length = (([] : List Turn)).length + 1) ∧
    (∀ response, runStages sampleOps "q" = Except.ok response →
      (processUserQuery sampleOps [] "q" 0 1).1 = response ∧
      (processUserQuery sampleOps [] "q" 0 1).2 =
        [] ++ [{ role := "user", content := "q", timestamp := 0 },
          { role := "assistant", content := response, timestamp := 1 }] ∧
      (processUserQuery sampleOps [] "q" 0 1).2.length = (([] : List Turn)).length + 2)) :=
  ⟨processUserQuery_history failingOps [] "q" 0 1 (by decide),
    processUserQuery_history sampleOps [] "q" 0 1 (by decide)⟩

/-! ## C8 — tool catalogs and the reserved namespace -/

/-- C8 (counterexample): the claim says both catalog views exclude the
reserved `system.` namespace.  The `system.getTools` tool does filter it
out (its catalog over the freshly-constructed server is empty), but the
`GET /tools` route maps over **all** registered names with no filter: on
the server right after construction it lists both `system.getTools` and
`system.ping`. -/
theorem toolsEndpoint_includes_system :
    "system.getTools" ∈ (toolsEndpointCatalog (serverInit 0)).map CatalogEntry.name ∧
    "system.ping" ∈ (toolsEndpointCatalog (serverInit 0)).map CatalogEntry.name ∧
    systemGetToolsCatalog (serverInit 0) = [] := by
  have hnames : (toolsEndpointCatalog (serverInit 0)).map CatalogEntry.name =
      ["system.getTools", "system.ping"] := rfl
  refine ⟨?_, ?_, rfl⟩ <;> rw [hnames] <;> simp

/-- C8 (amended): the catalog returned by the built-in `system.getTools`
tool contains exactly the registered tools outside the reserved `system.`
namespace, each with its description and schema, while the `GET /tools`
endpoint applies no filter and lists every registered tool — the
`system.*` built-ins included (the code has no mechanism for "explicitly
requesting" reserved entries). -/
theorem catalog_visibility (srv : MCPServer) (n : String) :
    ((∃ e ∈ systemGetToolsCatalog srv, e.name = n) ↔
      (n ∈ srv.tools.map Prod.fst ∧ jsStartsWith n "system." = false)) ∧
    ((∃ e ∈ toolsEndpointCatalog srv, e.name = n) ↔ n ∈ srv.tools.map Prod.fst) ∧
    (∀ e ∈ systemGetToolsCatalog srv,
      e.description = assocLookup srv.toolDescriptions e.name) ∧
    (∀ e ∈ toolsEndpointCatalog srv,
      e.description = assocLookup srv.toolDescriptions e.name) := by
  refine ⟨?_, ?_, ?_, ?_⟩
  · simp [systemGetToolsCatalog, catalogEntryOf, List.mem_filter, List.mem_map]
  · simp [toolsEndpointCatalog, catalogEntryOf, List.mem_map]
  · intro e he
    simp [systemGetToolsCatalog, catalogEntryOf, List.mem_map] at he
    obtain ⟨x, hx, hxe⟩ := he
    subst hxe
    rfl
  · intro e he
    simp [toolsEndpointCatalog, catalogEntryOf, List.mem_map] at he
    obtain ⟨x, hx, hxe⟩ := he
    subst hxe
    rfl
